import Mathlib

/-!
Verification of `phoneview_helper.py`, a library that loads CSV exports of
text-message logs from the PhoneView macOS application, normalizes them into a
common record shape, post-processes (identity filtering, redaction,
chronological sorting) and serializes back to the internal CSV layout.

Shallow embedding conventions:
* CSV file reading/writing (the `csv` module, the filesystem) is an external
  collaborator; functions operate on the parsed rows, `List (List String)`.
* A Python `datetime` is represented by its Unix epoch in whole seconds
  (`Int`); `datetime.fromtimestamp` and `datetime.timestamp` are then the
  identity, which is exact at one-second granularity.
* `datetime.strptime` with the external format string is an external
  collaborator and is passed in as a parsing function `String → Option Int`.
* A function that can raise returns `Option`/`Except`; `none`/`.error`
  models the exception.
* A pandas `DataFrame` of message records is represented by its list of rows
  (the records), in index order.
-/

namespace PhoneviewHelper

/-- A dynamically typed Python value as passed to the phone-number helpers:
either an `int` or a `str`. -/
inductive PyVal where
  | pyInt : Int → PyVal
  | pyStr : String → PyVal
deriving DecidableEq, Repr

/-! ### Decimal string codec

Model of Python `str` on an `int` value and of `int` applied to a decimal
string, used by the serializer (`"date": int(... .timestamp())` printed into a
CSV cell) and the internal loader (`int(row_dict["date"])`). -/

/-- The character for decimal digit `d` (meaningful for `d < 10`). -/
def digitChar (d : Nat) : Char := Char.ofNat (48 + d)

/-- The numeric value of a decimal digit character, `none` otherwise. -/
def charDigit (c : Char) : Option Nat :=
  if 48 ≤ c.toNat && c.toNat ≤ 57 then some (c.toNat - 48) else none

/-- Little-endian decimal digits of `n`; empty for `0`. -/
def natDigitsLE (n : Nat) : List Nat :=
  if h : n = 0 then [] else n % 10 :: natDigitsLE (n / 10)
termination_by n
decreasing_by exact Nat.div_lt_self (Nat.pos_of_ne_zero h) (by omega)

/-- Decimal representation of a natural number (model of Python `str`). -/
def natRepr (n : Nat) : String :=
  if n = 0 then "0" else String.mk (((natDigitsLE n).reverse).map digitChar)

/-- Decimal representation of an integer (model of Python `str` on `int`). -/
def intRepr (i : Int) : String :=
  if i < 0 then String.mk ('-' :: ((natDigitsLE i.natAbs).reverse).map digitChar)
  else natRepr i.toNat

/-- Parse a nonempty list of decimal digit characters, most significant
first. -/
def parseNatChars (cs : List Char) : Option Nat :=
  match cs.mapM charDigit with
  | some ds => if ds = [] then none else some (ds.foldl (fun a d => a * 10 + d) 0)
  | none => none

/-- Model of Python `int(...)` on a string: an optional leading minus sign
followed by at least one decimal digit; anything else raises `ValueError`,
modelled by `none`. -/
def parseInt (s : String) : Option Int :=
  if s.data.head? = some '-' then (parseNatChars s.data.tail).map (fun n => -(Int.ofNat n))
  else (parseNatChars s.data).map Int.ofNat

/-! ### Constants of the PhoneView file format (`phoneview_helper.py`) -/

def PHONEVIEW_INTERNAL_DB_FIELDS : List String := ["id", "date", "address", "text", "flags"]

def PHONEVIEW_INTERNAL_RECEIVED : String := "2"

def PHONEVIEW_INTERNAL_SENT : String := "3"

def PHONEVIEW_EXTERNAL_RECEIVED : String := "Received"

/-- The elementary record type for an entry of a PhoneView message log
(`PhoneViewMsgData`, a `TypedDict` with `total=False`: every key is
optional, modelled with `Option` fields). -/
structure PhoneViewMsgData where
  timestamp : Option Int := none
  inbound : Option Bool := none
  length : Option Nat := none
  content : Option String := none
  number : Option String := none
  name : Option String := none
  type : Option String := none
deriving DecidableEq, Repr

/-- `dict(zip(header, row))`: keyed lookup in which a later duplicate key
overrides an earlier one (Python dict insertion semantics), hence lookup over
the reversed association list. -/
def dictZip (header row : List String) (k : String) : Option String :=
  ((header.zip row).reverse).lookup k

/-- The `if "date" in row_dict:` / `int(row_dict["date"])` step of the
internal row loop: absent field means no `timestamp` key; a present field is
parsed, and a parse failure (`ValueError`) aborts the row. -/
def parseDateField : Option String → Option (Option Int)
  | some ds => (parseInt ds).map Option.some
  | none => some none

/-- One iteration of the row loop of `_load_internal_phoneview_msg_file`:
build `row_dict = dict(zip(header, row))`, then populate the record.  The
only statement that can raise is `int(row_dict["date"])`, modelled by the
`parseDateField` bind; `datetime.fromtimestamp` is the identity on the
epoch. -/
def _load_internal_phoneview_msg_row (header : List String) (row : List String) :
    Option PhoneViewMsgData :=
  (parseDateField (dictZip header row "date")).bind fun ts =>
  pure { timestamp := ts
       , inbound := (dictZip header row "flags").map (fun f => f == PHONEVIEW_INTERNAL_RECEIVED)
       , length := some ((dictZip header row "text").getD "").length
       , content := some ((dictZip header row "text").getD "")
       , number := dictZip header row "address"
       , name := match dictZip header row "grouptitle" with
                 | some g => if g ≠ "" then some g else none
                 | none => none
       , type := none }

/-- `_load_internal_phoneview_msg_file`: the row loop; a raising row aborts
the whole call. -/
def _load_internal_phoneview_msg_file (raw_rows : List (List String))
    (header : List String) : Option (List PhoneViewMsgData) :=
  raw_rows.mapM (_load_internal_phoneview_msg_row header)

/-- The `"type": row[5] if len(row) >= 5 else ""` entry of the external row
loop: the guard still permits the out-of-bounds access `row[5]` when the row
has exactly 5 fields, in which case the access raises (`none`). -/
def externalTypeField (row : List String) : Option String :=
  if 5 ≤ row.length then row.get? 5 else pure ""

/-- One iteration of the row loop of `_load_external_phoneview_msg_file`.
`ptime` models `datetime.strptime(row[1], "%b %d, %Y %H:%M:%S %p")`
(an external collaborator), returning the epoch or failing.  Positional
accesses `row[i]` are modelled by `List.get?`, whose `none` is the
`IndexError`.  Note the source guard for the `type` field is
`len(row) >= 5`, which still permits the out-of-bounds access `row[5]`
when the row has exactly 5 fields. -/
def _load_external_phoneview_msg_row (ptime : String → Option Int)
    (row : List String) : Option PhoneViewMsgData := do
  let tsStr ← row.get? 1
  let ts ← ptime tsStr
  let dir ← row.get? 0
  let body ← row.get? 4
  let nm ← row.get? 2
  let num ← row.get? 3
  let ty ← externalTypeField row
  pure { timestamp := some ts
       , inbound := some (dir == PHONEVIEW_EXTERNAL_RECEIVED)
       , length := some body.length
       , content := some body
       , name := some nm
       , number := some num
       , type := some ty }

/-- `_load_external_phoneview_msg_file`: the row loop; a raising row aborts
the whole call. -/
def _load_external_phoneview_msg_file (ptime : String → Option Int)
    (raw_rows : List (List String)) : Option (List PhoneViewMsgData) :=
  raw_rows.mapM (_load_external_phoneview_msg_row ptime)

/-- Python `s.replace(c, "")` for a one-character pattern: remove every
occurrence of `c`. -/
def pyRemoveChar (c : Char) (s : String) : String :=
  String.mk (s.data.filter (fun x => x != c))

/-- Python `x is int`: identity comparison with the builtin type object
`int`.  An `int` or `str` *value* is never the type object itself, so this
test is `false` on every value reaching `_normalize_phone_number`. -/
def pyIsTheTypeInt (_ : PyVal) : Bool := false

/-- `_normalize_phone_number`, in the regime the spec calls the fallback path:
the `import phonenumbers` raises `ImportError` (the library-backed branch is
an external collaborator and is not modelled).  The handler reads
`if phone_number is int: ... str(phone_number) else: ...` followed by the
character-stripping loop `for c in " ()-+"`; calling `.replace` on an `int`
raises `AttributeError`, modelled by `.error`. -/
def _normalize_phone_number (phone_number : PyVal) : Except String String :=
  if pyIsTheTypeInt phone_number then
    Except.ok (match phone_number with
               | .pyInt i => intRepr i
               | .pyStr s => s)
  else
    match phone_number with
    | .pyStr s =>
        Except.ok (pyRemoveChar '+' (pyRemoveChar '-' (pyRemoveChar ')'
          (pyRemoveChar '(' (pyRemoveChar ' ' s)))))
    | .pyInt _ => Except.error "AttributeError"

/-- `_compare_phone_numbers(*phone_numbers)`:
`len(set(map(_normalize_phone_number, phone_numbers))) == 1`, with a bare
`except:` returning `False`.  The Python `set` size is the number of distinct
normalized forms, `List.dedup.length`. -/
def _compare_phone_numbers (phone_numbers : List PyVal) : Bool :=
  match phone_numbers.mapM _normalize_phone_number with
  | Except.ok ns => ns.dedup.length == 1
  | Except.error _ => false

/-! ### `load_csv` post-processing and dispatch -/

/-- The filtering step of `load_csv`'s post-processing loop: a record is
skipped iff a target number was requested, the record has a `number` field,
and `_compare_phone_numbers` denies the match. -/
def keepRecord (phone_number : Option String) (r : PhoneViewMsgData) : Bool :=
  match phone_number, r.number with
  | some pn, some n => _compare_phone_numbers [PyVal.pyStr n, PyVal.pyStr pn]
  | _, _ => true

/-- The mutation steps of `load_csv`'s post-processing loop: `del` of the
`name`/`number` fields unless `keep_other_identity`, and of the `type` field
unless `keep_type`. -/
def scrubRecord (keep_type keep_other_identity : Bool) (r : PhoneViewMsgData) :
    PhoneViewMsgData :=
  let r1 := if keep_other_identity then r else { r with name := none, number := none }
  if keep_type then r1 else { r1 with type := none }

/-- The whole post-processing loop of `load_csv`: per record in order, filter
then scrub then append. -/
def postProcess (phone_number : Option String) (keep_type keep_other_identity : Bool)
    (records : List PhoneViewMsgData) : List PhoneViewMsgData :=
  (records.filter (keepRecord phone_number)).map (scrubRecord keep_type keep_other_identity)

/-- Ordering key of the final `sorted(..., key=lambda record: record["timestamp"])`;
total on records whose `timestamp` is present (guaranteed before sorting). -/
def timestampLE (a b : PhoneViewMsgData) : Prop :=
  a.timestamp.getD 0 ≤ b.timestamp.getD 0

instance : DecidableRel timestampLE := fun a b => Int.decLe _ _

/-- Python `sorted` is a stable sort; modelled by `List.insertionSort`
(also stable). -/
def sortByTimestamp (records : List PhoneViewMsgData) : List PhoneViewMsgData :=
  List.insertionSort timestampLE records

/-- Format detection of `load_csv`:
`len(set(raw_rows[0]).intersection(set(PHONEVIEW_INTERNAL_DB_FIELDS))) > 1`. -/
def detectInternal (first : List String) : Bool :=
  decide (1 < (first.toFinset ∩ PHONEVIEW_INTERNAL_DB_FIELDS.toFinset).card)

/-- Lift an exception-free optional result to `Except`, naming the Python
exception that the `none` stands for. -/
def exceptOfOption (msg : String) : Option α → Except String α
  | some a => Except.ok a
  | none => Except.error msg

/-- The dispatch step of `load_csv` on a nonempty row list: internal adapter
on the tail with the first row as header when the header heuristic fires,
external adapter on all rows otherwise. -/
def adaptPhoneviewRows (ptime : String → Option Int) (first : List String)
    (rest : List (List String)) : Except String (List PhoneViewMsgData) :=
  if detectInternal first then
    exceptOfOption "ValueError" (_load_internal_phoneview_msg_file rest first)
  else
    exceptOfOption "ValueError" (_load_external_phoneview_msg_file ptime (first :: rest))

/-- Tail of `load_csv` after adaptation: post-process; `return` (`None`,
modelled `Except.ok none`) when no record survives; otherwise sort by
timestamp — `sorted`'s key raises `KeyError` when a surviving record lacks a
`timestamp` — and assemble the tabular container (the `DataFrame` indexed and
sorted by timestamp, modelled by the sorted record list itself). -/
def postPipeline (phone_number : Option String) (keep_type keep_other_identity : Bool)
    (records : List PhoneViewMsgData) : Except String (Option (List PhoneViewMsgData)) :=
  let pp := postProcess phone_number keep_type keep_other_identity records
  if pp.isEmpty then Except.ok none
  else if pp.all (fun r => r.timestamp.isSome) then Except.ok (some (sortByTimestamp pp))
  else Except.error "KeyError"

/-- `load_csv`, from the parsed raw rows (file handling and the `csv` module
are external collaborators).  `Except.ok none` is Python's `None` return (the
explicit absence result); `Except.error` is an uncaught exception. -/
def load_csv (raw_rows : List (List String)) (phone_number : Option String)
    (keep_type keep_other_identity : Bool) (ptime : String → Option Int) :
    Except String (Option (List PhoneViewMsgData)) :=
  match raw_rows with
  | [] => Except.ok none
  | first :: rest =>
      (adaptPhoneviewRows ptime first rest).bind
        (postPipeline phone_number keep_type keep_other_identity)

/-! ### `erase_labels` (the Label Compressor) -/

/-- `c.isDigit`, spelled on code points. -/
def isDigitChar (c : Char) : Bool := 48 ≤ c.toNat && c.toNat ≤ 57

/-- `re.search(r"([0-9]*)/[0-9]*", item)`, returning the first captured group
of the leftmost match.  A match starting at a position consumes the maximal
digit run there and then requires a literal `/`; scanning positions
left-to-right, the leftmost match therefore sits at the start of the digit
run immediately preceding the first `/`, and the captured group is that run;
when the string has no `/` there is no match (`none`). -/
def searchDefault : List Char → Option (List Char)
  | [] => none
  | c :: rest =>
      match (c :: rest).drop ((c :: rest).takeWhile isDigitChar).length with
      | '/' :: _ => some ((c :: rest).takeWhile isDigitChar)
      | _ => searchDefault rest

/-- One iteration of the `erase_labels` loop with the default pattern:
returns the emitted label and the updated `prev_new_item`. -/
def eraseStep (prev : Option String) (item : String) : String × Option String :=
  match searchDefault item.data with
  | none => ("", prev)
  | some g =>
      let gi := String.mk g
      if some gi = prev then ("", prev) else (gi, some gi)

/-- The `erase_labels` loop, threading `prev_new_item`. -/
def eraseLabelsAux : Option String → List String → List String
  | _, [] => []
  | prev, x :: xs =>
      let p := eraseStep prev x
      p.1 :: eraseLabelsAux p.2 xs

/-- `erase_labels(lst)` with the default regexp `([0-9]*)/[0-9]*`
(`prev_new_item` starts as `None`). -/
def erase_labels (lst : List String) : List String :=
  eraseLabelsAux none lst

/-! ### `dump_to_csv` (the Serializer) -/

/-- The serialization loop of `dump_to_csv` over `enumerate(dataframe.values.tolist())`,
carried by the running `row_id`.  Accessing the `timestamp` or `inbound`
column of a row that lacks it raises (`KeyError`, modelled by the lifts);
`int(row_dict["timestamp"].to_pydatetime().timestamp())` is the epoch
integer itself. -/
def dumpRows (row_id : Nat) : List PhoneViewMsgData → Except String (List (List String))
  | [] => Except.ok []
  | r :: rs => do
      let t ← exceptOfOption "KeyError" r.timestamp
      let inb ← exceptOfOption "KeyError" r.inbound
      let rest ← dumpRows (row_id + 1) rs
      Except.ok ([natRepr row_id, intRepr t, r.number.getD "", r.content.getD "",
                  if inb then PHONEVIEW_INTERNAL_RECEIVED else PHONEVIEW_INTERNAL_SENT] :: rest)

/-- `dump_to_csv`, producing the written CSV as its rows (the `csv.DictWriter`
and the file/`StringIO` sink are external collaborators).  After the record
loop, `field_names = list(record_list[0].keys())` raises `IndexError` on an
empty record list; otherwise the header row (the keys of the fixed
`OrderedDict`, i.e. exactly `PHONEVIEW_INTERNAL_DB_FIELDS`) is emitted and
then every record row. -/
def dump_to_csv (dataframe : List PhoneViewMsgData) : Except String (List (List String)) := do
  let record_list ← dumpRows 0 dataframe
  match record_list with
  | [] => Except.error "IndexError"
  | _ :: _ => Except.ok (PHONEVIEW_INTERNAL_DB_FIELDS :: record_list)

/-! ### Correctness of the decimal codec -/

theorem charDigit_digitChar {d : Nat} (h : d < 10) : charDigit (digitChar d) = some d := by
  interval_cases d <;> decide

theorem digitChar_ne_dash {d : Nat} (h : d < 10) : digitChar d ≠ '-' := by
  interval_cases d <;> decide

theorem natDigitsLE_lt (n : Nat) : ∀ d ∈ natDigitsLE n, d < 10 := by
  induction n using Nat.strong_induction_on with
  | _ n ih =>
    rw [natDigitsLE]
    split
    · intro d hd
      simp at hd
    · next h =>
      intro d hd
      rcases List.mem_cons.mp hd with rfl | hd
      · exact Nat.mod_lt _ (by omega)
      · exact ih (n / 10) (Nat.div_lt_self (Nat.pos_of_ne_zero h) (by omega)) d hd

theorem natDigitsLE_ne_nil {n : Nat} (h : n ≠ 0) : natDigitsLE n ≠ [] := by
  rw [natDigitsLE]
  simp [h]

/-- The numeric value of a little-endian digit list. -/
def valLE : List Nat → Nat
  | [] => 0
  | d :: ds => d + 10 * valLE ds

theorem valLE_natDigitsLE (n : Nat) : valLE (natDigitsLE n) = n := by
  induction n using Nat.strong_induction_on with
  | _ n ih =>
    rw [natDigitsLE]
    split
    · next h => simp [valLE, h]
    · next h =>
      simp only [valLE, ih (n / 10) (Nat.div_lt_self (Nat.pos_of_ne_zero h) (by omega))]
      omega

theorem foldl_digits_reverse (l : List Nat) (a : Nat) :
    (l.reverse).foldl (fun x d => x * 10 + d) a = a * 10 ^ l.length + valLE l := by
  induction l generalizing a with
  | nil => simp [valLE]
  | cons d t ih =>
    simp only [List.reverse_cons, List.foldl_append, List.foldl_cons, List.foldl_nil, ih,
      valLE, List.length_cons]
    ring

theorem mapM_charDigit_map (l : List Nat) (h : ∀ d ∈ l, d < 10) :
    (l.map digitChar).mapM charDigit = some l := by
  induction l with
  | nil => rfl
  | cons d t ih =>
    rw [List.map_cons, List.mapM_cons, charDigit_digitChar (h d (List.mem_cons_self d t)),
      ih (fun x hx => h x (List.mem_cons_of_mem _ hx))]
    rfl

theorem parseNatChars_digits {n : Nat} (h : n ≠ 0) :
    parseNatChars (((natDigitsLE n).reverse).map digitChar) = some n := by
  unfold parseNatChars
  rw [mapM_charDigit_map _ (fun d hd => natDigitsLE_lt n d (List.mem_reverse.mp hd))]
  have hne : (natDigitsLE n).reverse ≠ [] := by
    simpa using natDigitsLE_ne_nil h
  change (if (natDigitsLE n).reverse = [] then none
    else some (List.foldl (fun a d => a * 10 + d) 0 ((natDigitsLE n).reverse))) = some n
  rw [if_neg hne, foldl_digits_reverse]
  simp [valLE_natDigitsLE]

theorem parseNatChars_natRepr (n : Nat) : parseNatChars (natRepr n).data = some n := by
  by_cases h : n = 0
  · subst h
    decide
  · rw [natRepr, if_neg h]
    exact parseNatChars_digits h

theorem natRepr_head_ne_dash (n : Nat) : (natRepr n).data.head? ≠ some '-' := by
  by_cases h : n = 0
  · subst h
    decide
  · rw [natRepr, if_neg h]
    have hmk : (String.mk (((natDigitsLE n).reverse).map digitChar)).data
        = ((natDigitsLE n).reverse).map digitChar := rfl
    rw [hmk]
    rcases hd : (natDigitsLE n).reverse with _ | ⟨d, t⟩
    · exact absurd (List.reverse_eq_nil_iff.mp hd) (natDigitsLE_ne_nil h)
    · have hd10 : d < 10 := by
        refine natDigitsLE_lt n d ?_
        rw [← List.mem_reverse, hd]
        exact List.mem_cons_self d t
      simp only [List.map_cons, List.head?_cons, ne_eq, Option.some.injEq]
      exact digitChar_ne_dash hd10

theorem parseInt_natRepr (n : Nat) : parseInt (natRepr n) = some (n : Int) := by
  rw [parseInt, if_neg (natRepr_head_ne_dash n), parseNatChars_natRepr]
  rfl

theorem parseInt_intRepr (i : Int) : parseInt (intRepr i) = some i := by
  rcases lt_or_le i 0 with hneg | hpos
  · have habs : i.natAbs ≠ 0 := by omega
    rw [intRepr, if_pos hneg, parseInt]
    have hmk : (String.mk ('-' :: ((natDigitsLE i.natAbs).reverse).map digitChar)).data
        = '-' :: ((natDigitsLE i.natAbs).reverse).map digitChar := rfl
    rw [hmk]
    rw [if_pos (show ('-' :: ((natDigitsLE i.natAbs).reverse).map digitChar).head?
      = some '-' from rfl)]
    rw [List.tail_cons, parseNatChars_digits habs]
    rw [show (some i.natAbs).map (fun n => -(Int.ofNat n)) = some (-(Int.ofNat i.natAbs))
      from rfl]
    congr 1
    rw [Int.ofNat_eq_natCast, Int.ofNat_natAbs_of_nonpos (le_of_lt hneg), neg_neg]
  · rw [intRepr, if_neg (by omega), parseInt_natRepr]
    congr 1
    exact Int.toNat_of_nonneg hpos

/-! ### C1: the external adapter's sixth-field guard -/

/-- C1: the claim says the External-Format Adapter sets `type` from
`field[5]` guarded so that no index-out-of-range error occurs for any row of
length 5 or more.  The code's guard `len(row) >= 5` admits the access
`row[5]` on a row of exactly 5 fields, which is out of bounds: on the
historical 5-column export row (with a timestamp its parser accepts) the
adapter raises `IndexError` (modelled by `none`) instead of producing a
record with an empty `type`. -/
theorem c1_external_row_of_five_fields_raises :
    _load_external_phoneview_msg_row (fun _ => some 0)
      ["Received", "Nov 11, 2012 15:34:01 PM", "Alexandra Jovez", "+16095552144",
       "What did you end up getting?."] = none := by
  rfl

/-! ### C4: the fallback identity normalizer -/

/-- C4: the claim says the fallback path of the Identity Normalizer returns
the decimal string of an integer input, and strips the characters
space, `(`, `)`, `-`, `+` from a string input.  The string half holds, as
the second conjunct illustrates, but the integer half does not: the source
tests `phone_number is int` — identity with the builtin type object, false
for every integer value — so an integer input reaches the string-stripping
branch and raises `AttributeError` (first conjunct) instead of returning
`"5551234"`. -/
theorem c4_fallback_normalizer_int_raises :
    _normalize_phone_number (PyVal.pyInt 5551234) = Except.error "AttributeError" ∧
    _normalize_phone_number (PyVal.pyStr "+1 (609) 555-1234") = Except.ok "16095551234" := by
  exact ⟨rfl, rfl⟩

/-! ### C10: the serializer on an empty container -/

/-- C10: on a tabular container with zero rows the Serializer reaches
`record_list[0]` (taking the field names from the first record) with an
empty `record_list` and raises `IndexError`, rather than producing a
header-only CSV or an absence value. -/
theorem c10_dump_empty_frame_raises_index_error :
    dump_to_csv [] = Except.error "IndexError" := by
  rfl

/-! ### C3: the Label Compressor is not idempotent -/

theorem searchDefault_eq_none {cs : List Char} (h : '/' ∉ cs) : searchDefault cs = none := by
  induction cs with
  | nil => rfl
  | cons c rest ih =>
    rw [searchDefault]
    split
    · next heq =>
      exfalso
      apply h
      refine List.drop_subset ((c :: rest).takeWhile isDigitChar).length (c :: rest) ?_
      rw [heq]
      exact List.mem_cons_self _ _
    · exact ih (fun hm => h (List.mem_cons_of_mem _ hm))

theorem searchDefault_digits {cs g : List Char} (h : searchDefault cs = some g) :
    ∀ x ∈ g, isDigitChar x = true := by
  induction cs with
  | nil => exact absurd h (by simp [searchDefault])
  | cons c rest ih =>
    rw [searchDefault] at h
    split at h
    · cases h
      exact fun x hx => List.mem_takeWhile_imp hx
    · exact ih h

theorem eraseStep_no_slash (prev : Option String) (item : String) :
    '/' ∉ (eraseStep prev item).1.data := by
  unfold eraseStep
  cases hs : searchDefault item.data with
  | none => simp
  | some g =>
    have hg : ∀ x ∈ g, isDigitChar x = true := searchDefault_digits hs
    by_cases hp : some (String.mk g) = prev
    · simp [hp]
    · simp only [if_neg hp]
      intro hmem
      have := hg '/' hmem
      simp [isDigitChar] at this

theorem eraseLabelsAux_no_slash (prev : Option String) (ls : List String) :
    ∀ s ∈ eraseLabelsAux prev ls, '/' ∉ s.data := by
  induction ls generalizing prev with
  | nil => simp [eraseLabelsAux]
  | cons x xs ih =>
    intro s hs
    rw [eraseLabelsAux] at hs
    rcases List.mem_cons.mp hs with rfl | hs
    · exact eraseStep_no_slash prev x
    · exact ih _ s hs

theorem eraseLabelsAux_all_empty (prev : Option String) (ls : List String)
    (h : ∀ s ∈ ls, '/' ∉ s.data) :
    eraseLabelsAux prev ls = List.replicate ls.length "" := by
  induction ls generalizing prev with
  | nil => rfl
  | cons x xs ih =>
    have hx : searchDefault x.data = none :=
      searchDefault_eq_none (h x (List.mem_cons_self x xs))
    rw [eraseLabelsAux, eraseStep, hx]
    rw [List.length_cons, List.replicate_succ]
    exact congrArg _ (ih _ (fun s hs => h s (List.mem_cons_of_mem _ hs)))

/-- C3 counterexample: the Label Compressor (default pattern) is not
idempotent; already on the singleton label list `["1/12"]` the first pass
yields `["1"]` and the second pass yields `[""]`. -/
theorem c3_compress_not_idempotent :
    ¬ erase_labels (erase_labels ["1/12"]) = erase_labels ["1/12"] := by
  decide

/-- C3 amended: a compressed label carries no `/`, so the default pattern
never matches it again; re-applying the Label Compressor to any of its
outputs therefore yields the all-empty label list of the same length (and is
a no-op only when the compressed output was already all-empty). -/
theorem c3_amended_double_compress_all_blank (ls : List String) :
    erase_labels (erase_labels ls) = List.replicate (erase_labels ls).length "" := by
  exact eraseLabelsAux_all_empty none _ (eraseLabelsAux_no_slash none ls)

/-! ### C5: the comparison operation never raises and tests joint equality -/

theorem mapM_except_ok_length {α β ε : Type} (f : α → Except ε β) :
    ∀ (l : List α) (out : List β), l.mapM f = Except.ok out → out.length = l.length := by
  intro l
  induction l with
  | nil =>
    intro out h
    rw [List.mapM_nil] at h
    cases h
    rfl
  | cons x xs ih =>
    intro out h
    rw [List.mapM_cons] at h
    cases hfx : f x with
    | error e =>
      rw [hfx] at h
      exact Except.noConfusion h
    | ok y =>
      rw [hfx] at h
      have h2 : (xs.mapM f >>= fun ys => pure (y :: ys)) = Except.ok out := h
      cases hxs : xs.mapM f with
      | error e =>
        rw [hxs] at h2
        exact Except.noConfusion h2
      | ok ys =>
        rw [hxs] at h2
        cases h2
        simp [ih ys hxs]

theorem dedup_length_eq_one_iff {α : Type} [DecidableEq α] {l : List α} (h : l ≠ []) :
    l.dedup.length = 1 ↔ ∀ a ∈ l, ∀ b ∈ l, a = b := by
  constructor
  · intro h1 a ha b hb
    obtain ⟨c, hc⟩ := List.length_eq_one.mp h1
    have ha' : a ∈ l.dedup := List.mem_dedup.mpr ha
    have hb' : b ∈ l.dedup := List.mem_dedup.mpr hb
    rw [hc, List.mem_singleton] at ha' hb'
    rw [ha', hb']
  · intro hall
    rcases l with _ | ⟨x, t⟩
    · exact absurd rfl h
    · have hx : ∀ b ∈ x :: t, b = x := fun b hb => hall b hb x (List.mem_cons_self x t)
      rw [List.eq_replicate_of_mem hx, List.replicate_dedup (by simp)]
      rfl

/-- C5: for every nonempty tuple of identities, `_compare_phone_numbers`
returns true iff normalization succeeds on all of them with identical
results; and whenever normalization raises (`mapM` returns an error, caught
by the bare `except:`), it returns false rather than propagating — as a total
`Bool`-valued function it never raises. -/
theorem c5_compare_iff_all_normalized_equal (vs : List PyVal) (hne : vs ≠ []) :
    (_compare_phone_numbers vs = true ↔
      ∃ ns, vs.mapM _normalize_phone_number = Except.ok ns ∧ ∀ a ∈ ns, ∀ b ∈ ns, a = b) ∧
    (∀ e, vs.mapM _normalize_phone_number = Except.error e →
      _compare_phone_numbers vs = false) := by
  constructor
  · unfold _compare_phone_numbers
    cases hm : vs.mapM _normalize_phone_number with
    | error e =>
      constructor
      · intro hfalse
        exact absurd hfalse (by simp)
      · rintro ⟨ns, hns, -⟩
        exact Except.noConfusion hns
    | ok ns =>
      have hlen : ns ≠ [] := by
        intro hnil
        have := mapM_except_ok_length _ vs ns hm
        rw [hnil] at this
        exact hne (List.length_eq_zero.mp this.symm)
      constructor
      · intro hb
        refine ⟨ns, rfl, (dedup_length_eq_one_iff hlen).mp ?_⟩
        simpa using hb
      · rintro ⟨ns2, hns2, hall⟩
        cases hns2
        simpa using (dedup_length_eq_one_iff hlen).mpr hall
  · intro e he
    unfold _compare_phone_numbers
    rw [he]

/-- C5 witness: the comparison criterion instantiated at a concrete pair of
identities. -/
theorem c5_compare_witness :
    _compare_phone_numbers [PyVal.pyStr "+1 (609) 555-1234", PyVal.pyStr "16095551234"] = true ↔
      ∃ ns, [PyVal.pyStr "+1 (609) 555-1234", PyVal.pyStr "16095551234"].mapM
        _normalize_phone_number = Except.ok ns ∧ ∀ a ∈ ns, ∀ b ∈ ns, a = b :=
  (c5_compare_iff_all_normalized_equal
    [PyVal.pyStr "+1 (609) 555-1234", PyVal.pyStr "16095551234"] (by decide)).1

/-! ### C6: the identity filter of post-processing -/

/-- C6: with filtering enabled (`phone_number = some x`), every record that
survives the filter step of post-processing and has a `number` field passes
`_compare_phone_numbers` against the target; a record without a `number`
field always survives the filter step; and post-processing is exactly this
filter followed by the field-scrubbing map. -/
theorem c6_filter_property (x : String) (records : List PhoneViewMsgData)
    (keep_type keep_other_identity : Bool) :
    (∀ r ∈ records.filter (keepRecord (some x)), ∀ n, r.number = some n →
      _compare_phone_numbers [PyVal.pyStr n, PyVal.pyStr x] = true) ∧
    (∀ r ∈ records, r.number = none → r ∈ records.filter (keepRecord (some x))) ∧
    postProcess (some x) keep_type keep_other_identity records =
      (records.filter (keepRecord (some x))).map
        (scrubRecord keep_type keep_other_identity) := by
  refine ⟨?_, ?_, rfl⟩
  · intro r hr n hn
    have hk : keepRecord (some x) r = true := (List.mem_filter.mp hr).2
    obtain ⟨ts, inb, len, cont, num, nm, ty⟩ := r
    replace hn : num = some n := hn
    subst hn
    exact hk
  · intro r hr hn
    obtain ⟨ts, inb, len, cont, num, nm, ty⟩ := r
    replace hn : num = none := hn
    subst hn
    exact List.mem_filter.mpr ⟨hr, rfl⟩

/-- C6 witness: a concrete record with a `number` field surviving the filter
step indeed compares equal to the target identity. -/
theorem c6_filter_witness :
    _compare_phone_numbers [PyVal.pyStr "(609) 555-1234", PyVal.pyStr "6095551234"] = true :=
  (c6_filter_property "6095551234"
      [{ timestamp := some 0, number := some "(609) 555-1234" }] true false).1
    { timestamp := some 0, number := some "(609) 555-1234" } (by decide)
    "(609) 555-1234" rfl

/-! ### C7: format detection -/

/-- C7: on a nonempty CSV, `load_csv` routes the rows to the Internal-Format
Adapter iff the set of values of the first row shares strictly more than one
element with the internal field-name set — here counted as the number of
distinct first-row values that occur among the internal field names — and to
the External-Format Adapter otherwise. -/
theorem c7_format_detection (first : List String) (rest : List (List String))
    (phone_number : Option String) (keep_type keep_other_identity : Bool)
    (ptime : String → Option Int) :
    load_csv (first :: rest) phone_number keep_type keep_other_identity ptime =
      (if 1 < ((first.filter (fun s => s ∈ PHONEVIEW_INTERNAL_DB_FIELDS)).dedup).length
       then exceptOfOption "ValueError" (_load_internal_phoneview_msg_file rest first)
       else exceptOfOption "ValueError"
         (_load_external_phoneview_msg_file ptime (first :: rest))).bind
        (postPipeline phone_number keep_type keep_other_identity) := by
  have hcard : (first.toFinset ∩ PHONEVIEW_INTERNAL_DB_FIELDS.toFinset).card
      = ((first.filter (fun s => s ∈ PHONEVIEW_INTERNAL_DB_FIELDS)).dedup).length := by
    rw [← List.card_toFinset, List.toFinset_filter]
    congr 1
    rw [← Finset.filter_mem_eq_inter]
    apply Finset.filter_congr
    intro a ha
    simp [List.mem_toFinset]
  show (adaptPhoneviewRows ptime first rest).bind
      (postPipeline phone_number keep_type keep_other_identity) = _
  rw [adaptPhoneviewRows, detectInternal, hcard]
  by_cases hc : 1 < ((first.filter (fun s => s ∈ PHONEVIEW_INTERNAL_DB_FIELDS)).dedup).length
  · rw [if_pos (by simpa using hc), if_pos hc]
  · rw [if_neg (by simpa using hc), if_neg hc]

/-! ### C9: explicit absence on empty input and on empty survivors -/

/-- C9: `load_csv` returns Python `None` (`Except.ok none`) — not an empty
container and not an error — both when the file parses to zero raw rows and
when adaptation succeeds but zero records survive post-processing. -/
theorem c9_load_absence (phone_number : Option String) (keep_type keep_other_identity : Bool)
    (ptime : String → Option Int) (first : List String) (rest : List (List String))
    (recs : List PhoneViewMsgData)
    (hadapt : adaptPhoneviewRows ptime first rest = Except.ok recs)
    (hnone : postProcess phone_number keep_type keep_other_identity recs = []) :
    load_csv [] phone_number keep_type keep_other_identity ptime = Except.ok none ∧
    load_csv (first :: rest) phone_number keep_type keep_other_identity ptime =
      Except.ok none := by
  refine ⟨rfl, ?_⟩
  show (adaptPhoneviewRows ptime first rest).bind
      (postPipeline phone_number keep_type keep_other_identity) = Except.ok none
  rw [hadapt]
  show postPipeline phone_number keep_type keep_other_identity recs = Except.ok none
  simp [postPipeline, hnone]

/-- C9 witness: the empty file, and a one-row external file in which the only
record is filtered away by a non-matching target identity, both load to the
explicit absence result. -/
theorem c9_load_absence_witness :
    load_csv [] (some "+2") true false (fun _ => some 0) = Except.ok none ∧
    load_csv [["Received", "ts", "A", "+1", "Hi", "iMessage"]] (some "+2") true false
      (fun _ => some 0) = Except.ok none :=
  c9_load_absence (some "+2") true false (fun _ => some 0)
    ["Received", "ts", "A", "+1", "Hi", "iMessage"] []
    [{ timestamp := some 0, inbound := some true, length := some 2, content := some "Hi",
       number := some "+1", name := some "A", type := some "iMessage" }]
    (by rfl) (by rfl)

/-! ### C8: `length` equals the character count of `content`, pipeline-wide -/

theorem mapM_option_mem {α β : Type} (f : α → Option β) :
    ∀ (l : List α) (out : List β), l.mapM f = some out → ∀ b ∈ out, ∃ a ∈ l, f a = some b := by
  intro l
  induction l with
  | nil =>
    intro out h b hb
    rw [List.mapM_nil] at h
    cases h
    exact absurd hb (by simp)
  | cons x xs ih =>
    intro out h b hb
    rw [List.mapM_cons] at h
    cases hfx : f x with
    | none =>
      rw [hfx] at h
      exact Option.noConfusion h
    | some y =>
      rw [hfx] at h
      have h2 : (xs.mapM f >>= fun ys => pure (y :: ys)) = some out := h
      cases hxs : xs.mapM f with
      | none =>
        rw [hxs] at h2
        exact Option.noConfusion h2
      | some ys =>
        rw [hxs] at h2
        cases h2
        rcases List.mem_cons.mp hb with rfl | hb
        · exact ⟨x, List.mem_cons_self x xs, hfx⟩
        · obtain ⟨a, ha, hfa⟩ := ih ys hxs b hb
          exact ⟨a, List.mem_cons_of_mem x ha, hfa⟩

theorem internal_row_length_content {header row : List String} {r : PhoneViewMsgData}
    (h : _load_internal_phoneview_msg_row header row = some r) :
    ∃ s, r.content = some s ∧ r.length = some s.length := by
  unfold _load_internal_phoneview_msg_row at h
  obtain ⟨ts, -, hr⟩ := Option.bind_eq_some.mp h
  cases hr
  exact ⟨(dictZip header row "text").getD "", rfl, rfl⟩

theorem external_row_length_content {ptime : String → Option Int} {row : List String}
    {r : PhoneViewMsgData} (h : _load_external_phoneview_msg_row ptime row = some r) :
    ∃ s, r.content = some s ∧ r.length = some s.length := by
  unfold _load_external_phoneview_msg_row at h
  simp only [Option.bind_eq_bind', Option.bind_eq_some, Option.pure_def,
    Option.some.injEq] at h
  obtain ⟨tsStr, -, ts, -, dir, -, body, -, nm, -, num, -, ty, -, hr⟩ := h
  refine ⟨body, ?_, ?_⟩ <;> rw [← hr]

theorem adapt_records_length_content {ptime : String → Option Int} {first : List String}
    {rest : List (List String)} {recs : List PhoneViewMsgData}
    (h : adaptPhoneviewRows ptime first rest = Except.ok recs) :
    ∀ r ∈ recs, ∃ s, r.content = some s ∧ r.length = some s.length := by
  unfold adaptPhoneviewRows at h
  by_cases hd : detectInternal first
  · rw [if_pos hd] at h
    cases hfile : _load_internal_phoneview_msg_file rest first with
    | none =>
      rw [hfile] at h
      exact Except.noConfusion h
    | some rs =>
      rw [hfile] at h
      cases h
      intro r hr
      obtain ⟨row, -, hload⟩ := mapM_option_mem _ rest recs hfile r hr
      exact internal_row_length_content hload
  · rw [if_neg hd] at h
    cases hfile : _load_external_phoneview_msg_file ptime (first :: rest) with
    | none =>
      rw [hfile] at h
      exact Except.noConfusion h
    | some rs =>
      rw [hfile] at h
      cases h
      intro r hr
      obtain ⟨row, -, hload⟩ := mapM_option_mem _ (first :: rest) recs hfile r hr
      exact external_row_length_content hload

theorem scrubRecord_preserves (keep_type keep_other_identity : Bool) (r : PhoneViewMsgData) :
    (scrubRecord keep_type keep_other_identity r).content = r.content ∧
    (scrubRecord keep_type keep_other_identity r).length = r.length := by
  unfold scrubRecord
  by_cases hi : keep_other_identity <;> by_cases ht : keep_type <;> simp [hi, ht]

/-- C8: every record of a successfully loaded tabular container — whichever
adapter produced it, across filtering, scrubbing, sorting and container
assembly — carries a `content` string together with a `length` equal to its
character count. -/
theorem c8_length_matches_content (raw_rows : List (List String)) (phone_number : Option String)
    (keep_type keep_other_identity : Bool) (ptime : String → Option Int)
    (out : List PhoneViewMsgData)
    (h : load_csv raw_rows phone_number keep_type keep_other_identity ptime =
      Except.ok (some out)) :
    ∀ r ∈ out, ∃ s, r.content = some s ∧ r.length = some s.length := by
  intro r hr
  rcases raw_rows with _ | ⟨first, rest⟩
  · exact Option.noConfusion (Except.ok.inj h)
  · have h2 : (adaptPhoneviewRows ptime first rest).bind
        (postPipeline phone_number keep_type keep_other_identity) = Except.ok (some out) := h
    cases hadapt : adaptPhoneviewRows ptime first rest with
    | error e =>
      rw [hadapt] at h2
      exact Except.noConfusion h2
    | ok recs =>
      rw [hadapt] at h2
      have h3 : postPipeline phone_number keep_type keep_other_identity recs =
          Except.ok (some out) := h2
      simp only [postPipeline] at h3
      by_cases hemp : (postProcess phone_number keep_type keep_other_identity recs).isEmpty
      · rw [if_pos hemp] at h3
        exact Option.noConfusion (Except.ok.inj h3)
      · rw [if_neg hemp] at h3
        by_cases hall : (postProcess phone_number keep_type keep_other_identity recs).all
            (fun q => q.timestamp.isSome)
        · rw [if_pos hall] at h3
          have hout : out =
              sortByTimestamp (postProcess phone_number keep_type keep_other_identity recs) :=
            (Option.some.inj (Except.ok.inj h3)).symm
          rw [hout, sortByTimestamp] at hr
          have hr2 : r ∈ postProcess phone_number keep_type keep_other_identity recs :=
            (List.mem_insertionSort timestampLE).mp hr
          rw [postProcess] at hr2
          obtain ⟨r0, hr0, hscr⟩ := List.mem_map.mp hr2
          have hr0' : r0 ∈ recs := List.mem_filter.mp hr0 |>.1
          obtain ⟨s, hc, hl⟩ := adapt_records_length_content hadapt r0 hr0'
          obtain ⟨hcp, hlp⟩ := scrubRecord_preserves keep_type keep_other_identity r0
          refine ⟨s, ?_, ?_⟩
          · rw [← hscr, hcp, hc]
          · rw [← hscr, hlp, hl]
        · rw [if_neg hall] at h3
          exact Except.noConfusion h3

/-- C8 witness: the invariant instantiated on a concrete external-format
load. -/
theorem c8_length_matches_content_witness :
    ∃ s, (PhoneViewMsgData.mk (some 0) (some true) (some 2) (some "Hi") none none
        (some "iMessage")).content = some s ∧
      (PhoneViewMsgData.mk (some 0) (some true) (some 2) (some "Hi") none none
        (some "iMessage")).length = some s.length :=
  c8_length_matches_content [["Received", "ts", "A", "+1", "Hi", "iMessage"]] none true false
    (fun _ => some 0)
    [PhoneViewMsgData.mk (some 0) (some true) (some 2) (some "Hi") none none (some "iMessage")]
    (by rfl)
    (PhoneViewMsgData.mk (some 0) (some true) (some 2) (some "Hi") none none (some "iMessage"))
    (List.mem_singleton.mpr rfl)

/-! ### C2: serializing and re-loading an internal-origin dataset -/

/-- The rows produced by the serializer loop on records that carry
`timestamp` and `inbound`. -/
def dumpRowsPure (row_id : Nat) : List PhoneViewMsgData → List (List String)
  | [] => []
  | r :: rs =>
      [natRepr row_id, intRepr (r.timestamp.getD 0), r.number.getD "", r.content.getD "",
       if r.inbound.getD false then PHONEVIEW_INTERNAL_RECEIVED else PHONEVIEW_INTERNAL_SENT]
        :: dumpRowsPure (row_id + 1) rs

theorem dumpRows_eq (df : List PhoneViewMsgData)
    (h : ∀ r ∈ df, r.timestamp.isSome ∧ r.inbound.isSome) :
    ∀ k, dumpRows k df = Except.ok (dumpRowsPure k df) := by
  induction df with
  | nil => intro k; rfl
  | cons r rs ih =>
    intro k
    obtain ⟨ht, hb⟩ := h r (List.mem_cons_self r rs)
    obtain ⟨t, ht'⟩ := Option.isSome_iff_exists.mp ht
    obtain ⟨b, hb'⟩ := Option.isSome_iff_exists.mp hb
    rw [dumpRows, dumpRowsPure]
    simp only [ht', hb', Option.getD_some, ih (fun q hq => h q (List.mem_cons_of_mem _ hq))]
    rfl

theorem dump_to_csv_eq (df : List PhoneViewMsgData) (hne : df ≠ [])
    (h : ∀ r ∈ df, r.timestamp.isSome ∧ r.inbound.isSome) :
    dump_to_csv df = Except.ok (PHONEVIEW_INTERNAL_DB_FIELDS :: dumpRowsPure 0 df) := by
  unfold dump_to_csv
  rw [dumpRows_eq df h 0]
  rcases df with _ | ⟨r, rs⟩
  · exact absurd rfl hne
  · rfl

/-- The record obtained by re-loading one serialized row through the internal
adapter. -/
def reloadShape (r : PhoneViewMsgData) : PhoneViewMsgData :=
  { timestamp := r.timestamp, inbound := r.inbound,
    length := some (r.content.getD "").length, content := some (r.content.getD ""),
    number := some (r.number.getD ""), name := none, type := none }

theorem reload_dump_row (t : Int) (b : Bool) (k : Nat) (addr txt : String) :
    _load_internal_phoneview_msg_row PHONEVIEW_INTERNAL_DB_FIELDS
      [natRepr k, intRepr t, addr, txt,
       if b then PHONEVIEW_INTERNAL_RECEIVED else PHONEVIEW_INTERNAL_SENT] =
    some { timestamp := some t, inbound := some b, length := some txt.length,
           content := some txt, number := some addr, name := none, type := none } := by
  have h1 : _load_internal_phoneview_msg_row PHONEVIEW_INTERNAL_DB_FIELDS
      [natRepr k, intRepr t, addr, txt,
       if b then PHONEVIEW_INTERNAL_RECEIVED else PHONEVIEW_INTERNAL_SENT] =
    (parseDateField (some (intRepr t))).bind (fun ts =>
      pure { timestamp := ts,
             inbound := some ((if b then PHONEVIEW_INTERNAL_RECEIVED else PHONEVIEW_INTERNAL_SENT)
               == PHONEVIEW_INTERNAL_RECEIVED),
             length := some txt.length, content := some txt, number := some addr,
             name := none, type := none }) := rfl
  rw [h1]
  rw [show parseDateField (some (intRepr t)) = (parseInt (intRepr t)).map Option.some from rfl]
  rw [parseInt_intRepr]
  cases b <;> rfl

theorem reload_dump_rows (df : List PhoneViewMsgData)
    (h : ∀ r ∈ df, r.timestamp.isSome ∧ r.inbound.isSome) :
    ∀ k, _load_internal_phoneview_msg_file (dumpRowsPure k df) PHONEVIEW_INTERNAL_DB_FIELDS =
      some (df.map reloadShape) := by
  induction df with
  | nil => intro k; rfl
  | cons r rs ih =>
    intro k
    obtain ⟨ht, hb⟩ := h r (List.mem_cons_self r rs)
    obtain ⟨t, ht'⟩ := Option.isSome_iff_exists.mp ht
    obtain ⟨b, hb'⟩ := Option.isSome_iff_exists.mp hb
    have hrest := ih (fun q hq => h q (List.mem_cons_of_mem _ hq)) (k + 1)
    unfold _load_internal_phoneview_msg_file at hrest ⊢
    rw [dumpRowsPure, List.mapM_cons]
    simp only [ht', hb', Option.getD_some]
    rw [reload_dump_row]
    simp only [Option.bind_eq_bind', Option.some_bind, hrest, List.map_cons]
    simp only [reloadShape, ht', hb', Option.getD_some]
    rfl

theorem postProcess_none_defaults (l : List PhoneViewMsgData) :
    postProcess none true false l = l.map (scrubRecord true false) := by
  unfold postProcess
  congr 1
  apply List.filter_eq_self.mpr
  intro r hr
  rfl

/-- Scrubbing with the default options after an internal re-load just drops
the `number` field. -/
def cleanShape (r : PhoneViewMsgData) : PhoneViewMsgData :=
  { timestamp := r.timestamp, inbound := r.inbound,
    length := some (r.content.getD "").length, content := some (r.content.getD ""),
    number := none, name := none, type := none }

theorem scrub_reload (r : PhoneViewMsgData) :
    scrubRecord true false (reloadShape r) = cleanShape r := rfl

/-- C2: serializing a non-empty post-processed internal-origin dataset —
records carrying `timestamp`, `inbound` and `content`, already sorted
chronologically — and re-loading the produced CSV rows through the Format
Detector and the Internal-Format Adapter (the full `load_csv` with default
options) reproduces the `content`, `inbound` and `timestamp` (epoch-second)
values of the original records, in order. -/
theorem c2_serialize_reload_round_trip (df : List PhoneViewMsgData)
    (ptime : String → Option Int) (hne : df ≠ [])
    (hpres : ∀ r ∈ df, r.timestamp.isSome ∧ r.inbound.isSome ∧ r.content.isSome)
    (hsorted : List.Pairwise timestampLE df) :
    ∃ rows out, dump_to_csv df = Except.ok rows ∧
      load_csv rows none true false ptime = Except.ok (some out) ∧
      List.Forall₂ (fun a b => a.content = b.content ∧ a.inbound = b.inbound ∧
        a.timestamp = b.timestamp) out df := by
  have hpres2 : ∀ r ∈ df, r.timestamp.isSome ∧ r.inbound.isSome :=
    fun r hr => ⟨(hpres r hr).1, (hpres r hr).2.1⟩
  refine ⟨PHONEVIEW_INTERNAL_DB_FIELDS :: dumpRowsPure 0 df, df.map cleanShape,
    dump_to_csv_eq df hne hpres2, ?_, ?_⟩
  · show (adaptPhoneviewRows ptime PHONEVIEW_INTERNAL_DB_FIELDS (dumpRowsPure 0 df)).bind
      (postPipeline none true false) = Except.ok (some (df.map cleanShape))
    rw [adaptPhoneviewRows,
      if_pos (show detectInternal PHONEVIEW_INTERNAL_DB_FIELDS = true by decide),
      reload_dump_rows df hpres2 0]
    show postPipeline none true false (df.map reloadShape) = Except.ok (some (df.map cleanShape))
    have hpp : postProcess none true false (df.map reloadShape) = df.map cleanShape := by
      rw [postProcess_none_defaults, List.map_map]
      rfl
    have hnonempty : ¬ ((df.map cleanShape).isEmpty = true) := by
      rcases df with _ | ⟨r, rs⟩
      · exact absurd rfl hne
      · simp
    have hall : (df.map cleanShape).all (fun q => q.timestamp.isSome) = true := by
      rw [List.all_eq_true]
      intro q hq
      obtain ⟨a, ha, rfl⟩ := List.mem_map.mp hq
      exact (hpres2 a ha).1
    have hsorted2 : List.Sorted timestampLE (df.map cleanShape) := by
      rw [List.Sorted, List.pairwise_map]
      exact hsorted.imp (fun {a b} hab => hab)
    simp only [postPipeline, hpp]
    rw [if_neg hnonempty, if_pos hall, sortByTimestamp, hsorted2.insertionSort_eq]
  · rw [List.forall₂_map_left_iff]
    rw [List.forall₂_same]
    intro a ha
    obtain ⟨-, -, hc⟩ := hpres a ha
    obtain ⟨s, hs⟩ := Option.isSome_iff_exists.mp hc
    refine ⟨?_, rfl, rfl⟩
    show (cleanShape a).content = a.content
    simp [cleanShape, hs]

/-- C2 witness: the round trip instantiated on a concrete one-record
internal-origin dataset. -/
theorem c2_serialize_reload_round_trip_witness :
    ∃ rows out,
      dump_to_csv [PhoneViewMsgData.mk (some 1600000000) (some true) (some 5) (some "Hello")
        none none none] = Except.ok rows ∧
      load_csv rows none true false (fun _ => some 0) = Except.ok (some out) ∧
      List.Forall₂ (fun a b => a.content = b.content ∧ a.inbound = b.inbound ∧
        a.timestamp = b.timestamp) out
        [PhoneViewMsgData.mk (some 1600000000) (some true) (some 5) (some "Hello")
          none none none] :=
  c2_serialize_reload_round_trip
    [PhoneViewMsgData.mk (some 1600000000) (some true) (some 5) (some "Hello") none none none]
    (fun _ => some 0) (by decide) (by decide) (by simp)

end PhoneviewHelper
